import Mathlib

/-!
Verification development for `loopify_audio.py`, a tool that rotates an
audio file around a cut point so that it loops seamlessly.

Numeric model: Python's finite floats are modelled by rationals (`ℚ`);
Python's `%` on floats has floored-modulo semantics, modelled exactly by
`pymod` below.  Paths are modelled as strings that are already canonical
(`Path.resolve` is the identity on them).  The filesystem is a finite
association list from paths to file contents, with the process-scoped
temporary directory kept as a separate namespace that is discarded when
the run exits (the semantics of `tempfile.TemporaryDirectory`).  The
external `ffmpeg`/`ffprobe` collaborators are oracles: each invocation
either succeeds (writing its complete output) or fails, and a failing
invocation may or may not leave a partially written file at its target.
-/

namespace Loopify

/-- Python's `%` on floats (floored modulo): `a - b * ⌊a / b⌋`.
Models `cut_seconds % duration` at line 137 of `loopify_audio.py`. -/
def pymod (a b : ℚ) : ℚ := a - b * ⌊a / b⌋

/-- `math.isclose(x, 0.0, abs_tol=1e-6)` with the default
`rel_tol=1e-9`: `|x - 0| ≤ max(rel_tol * max(|x|, |0|), abs_tol)`.
Models line 138 of `loopify_audio.py`. -/
def isCloseZero (x : ℚ) : Bool :=
  |x| ≤ max (1/1000000000 * |x|) (1/1000000)

/-- Python's `str.lower()` on a suffix string, character by character
(`Char.toLower` handles exactly the basic latin letters, which is all a
file extension needs). -/
def strLower (s : String) : String :=
  String.mk (s.data.map Char.toLower)

/-- `_infer_codec_args` (lines 71–77): codec parameters for the
re-encode fallback, chosen from a file-extension string. -/
def inferCodecArgs (suffix : String) : List String :=
  let ext := strLower suffix
  if ext = ".mp3" then ["-c:a", "libmp3lame", "-q:a", "2"]
  else if ext = ".wav" then ["-c:a", "pcm_s16le"]
  else ["-c:a", "aac", "-b:a", "192k"]

/-- The suffix string actually passed to `_infer_codec_args` at line 207:
`dest.suffix or src.suffix` — Python's `or` takes the source suffix when
the destination suffix is the empty string. -/
def fallbackSuffix (destSuffix srcSuffix : String) : String :=
  if destSuffix = "" then srcSuffix else destSuffix

/-- One stream entry of the `ffprobe` JSON output: only the
`codec_type` field is inspected by the code. -/
structure FfStream where
  codec_type : String
deriving DecidableEq, Repr

/-- The `format.duration` field of the `ffprobe` JSON output, as seen by
`_probe_duration`: absent, present but not parseable by `float(...)`,
the float `nan`, or a finite numeric value (modelled by a rational). -/
inductive DurationField where
  | missing
  | unparseable
  | nan
  | value (v : ℚ)
deriving DecidableEq, Repr

/-- The observable outcome of running `ffprobe` on the input. -/
structure ProbeOut where
  returncode : Int
  streams : List FfStream
  duration : DurationField
deriving DecidableEq, Repr

/-- The failure taxonomy of the pipeline (spec §7).  The Python source
raises `RuntimeError` with distinct messages at each of these points. -/
inductive RunError where
  | inputNotFound
  | probeFailure
  | noAudioStream
  | invalidDuration
  | invalidCutSpec
  | outputDirMissing
  | overwriteRefused
  | splitFailure
  | joinFailure
deriving DecidableEq, Repr

/-- `_probe_duration` (lines 28–57): checks the exit code, requires an
audio stream, requires a parseable duration value, maps `nan` to `0.0`,
and otherwise returns the parsed value unchanged. -/
def probeDuration (p : ProbeOut) : Except RunError ℚ :=
  if p.returncode ≠ 0 then .error .probeFailure
  else if ¬ p.streams.any (fun s => s.codec_type = "audio") then
    .error .noAudioStream
  else
    match p.duration with
    | .missing => .error .invalidDuration
    | .unparseable => .error .invalidDuration
    | .nan => .ok 0
    | .value v => .ok v

/-- Injection of `Except` into a sum type, to derive decidable
equality of run outcomes. -/
def exceptToSum {ε α : Type} (x : Except ε α) : ε ⊕ α :=
  match x with
  | .error e => .inl e
  | .ok a => .inr a

instance {ε α : Type} [DecidableEq ε] [DecidableEq α] :
    DecidableEq (Except ε α) := fun a b =>
  decidable_of_iff (exceptToSum a = exceptToSum b)
    (by cases a <;> cases b <;> simp [exceptToSum])

/-- File contents, abstracted.  `bytes` is an ordinary file; `joined`
is a complete output produced by the Concatenator (losslessly or via the
re-encode fallback); `truncated` is the partially written file a failed
`ffmpeg` invocation may leave at its output target. -/
inductive Content where
  | bytes (b : List Nat)
  | joined (lossless : Bool)
  | truncated
deriving DecidableEq, Repr

/-- The user-visible filesystem: file contents keyed by canonical path,
plus the set of existing directories (for the `dest.parent.exists()`
check).  The process-scoped temporary directory is *not* part of this
map: `tempfile.TemporaryDirectory` guarantees it is destroyed when the
run exits, so its files are threaded as local values instead. -/
structure FS where
  files : String → Option Content
  dirs : String → Bool

/-- Pointwise update of the file map. -/
def FS.set (fs : FS) (p : String) (c : Option Content) : FS :=
  { fs with files := fun q => if q = p then c else fs.files q }

/-- The observable events of one run, in execution order:
`unlinkDest` is the `dest.unlink()` of the forced-overwrite branch,
`copyNoOp` the `_copy_file` no-op path, `splitTail`/`splitHead` the two
Splitter invocations, `concatLossless`/`concatTranscode` the two
Concatenator strategies (the latter carrying its codec arguments), and
`renameIntoDest` the final `Path(work_output).replace(dest)` of a
same-path run. -/
inductive Event where
  | unlinkDest
  | copyNoOp
  | splitTail
  | splitHead
  | concatLossless
  | concatTranscode (codecArgs : List String)
  | renameIntoDest
deriving DecidableEq, Repr

/-- Outcome of one external `ffmpeg` invocation: success writes the
complete output at the target; failure may or may not leave a partially
written file there. -/
inductive ExtOutcome where
  | ok
  | fail (leavesTruncated : Bool)
deriving DecidableEq, Repr

/-- The external collaborators of one run: the `ffprobe` observation
and the outcomes of the four possible `ffmpeg` invocations. -/
structure Oracle where
  probe : ProbeOut
  splitTail : ExtOutcome
  splitHead : ExtOutcome
  concatCopy : ExtOutcome
  transcode : ExtOutcome
deriving DecidableEq, Repr

/-- The arguments of `loopify_audio` (paths already canonical). -/
structure RunInput where
  src : String
  cutSeconds : ℚ
  outputPath : Option String
  force : Bool
deriving DecidableEq, Repr

/-- The result of a run: the returned path or the error raised, the
final user-visible filesystem, and the event trace. -/
structure RunResult where
  outcome : Except RunError String
  fs : FS
  trace : List Event

/-! Path helpers mirroring `pathlib.PurePath`, on canonical strings. -/

/-- The final path component (after the last `/`). -/
def basenameChars (p : List Char) : List Char :=
  (p.reverse.takeWhile (fun c => c ≠ '/')).reverse

/-- Everything up to and including the last `/` (empty if none). -/
def dirPrefixChars (p : List Char) : List Char :=
  (p.reverse.dropWhile (fun c => c ≠ '/')).reverse

/-- `PurePath.suffix` on a final component: the part from the last dot,
empty when the dot is absent, leading, or trailing. -/
def pySuffixChars (bn : List Char) : List Char :=
  let afterDot := (bn.reverse.takeWhile (fun c => c ≠ '.')).reverse
  if afterDot.length = bn.length then []
  else if afterDot.length = 0 then []
  else if bn.length - afterDot.length - 1 = 0 then []
  else '.' :: afterDot

/-- `Path.suffix`. -/
def pathSuffix (p : String) : String :=
  String.mk (pySuffixChars (basenameChars p.data))

/-- `Path.stem`: the final component without its suffix. -/
def pathStem (p : String) : String :=
  let bn := basenameChars p.data
  String.mk (bn.take (bn.length - (pySuffixChars bn).length))

/-- `Path.parent` as a string: the part before the last `/`, `"."` when
there is no `/`, `"/"` for a top-level path. -/
def parentDir (p : String) : String :=
  if p.data.contains '/' then
    let d := (dirPrefixChars p.data).dropLast
    if d.isEmpty then "/" else String.mk d
  else "."

/-- The default destination (lines 111–114):
`src.with_name(f"{src.stem}.loopified{src.suffix}")`. -/
def defaultDest (src : String) : String :=
  String.mk (dirPrefixChars src.data) ++ pathStem src ++ ".loopified"
    ++ pathSuffix src

/-- The destination path of a run: the explicit output path when given,
else the default name next to the source. -/
def destOf (inp : RunInput) : String :=
  match inp.outputPath with
  | some p => p
  | none => defaultDest inp.src

/-- Net effect of `_copy_file` (lines 80–91): the destination receives
the source's bytes.  In the same-path case this is staged through a
temporary file in the destination directory and atomically swapped in;
the net effect on the user filesystem is the same single update. -/
def copyFile (fs : FS) (srcContent : Content) (dest : String) : FS :=
  fs.set dest (some srcContent)

/-- The rotated case (lines 142–229): split tail and head into the
temporary directory, then join them — lossless stream copy first, the
re-encode fallback only if that fails, `JoinFailure` if both fail.  The
join target is the destination itself when it is not the source, else a
working file in the temporary directory that is renamed over the
destination only after the join succeeds. -/
def rotatedRun (fs : FS) (o : Oracle) (src dest : String)
    (samePath : Bool) : RunResult :=
  match o.splitTail with
  | .fail _ => ⟨.error .splitFailure, fs, [.splitTail]⟩
  | .ok =>
  match o.splitHead with
  | .fail _ => ⟨.error .splitFailure, fs, [.splitTail, .splitHead]⟩
  | .ok =>
    let cargs := inferCodecArgs (fallbackSuffix (pathSuffix dest) (pathSuffix src))
    match o.concatCopy with
    | .ok =>
      if samePath then
        ⟨.ok dest, fs.set dest (some (.joined true)),
          [.splitTail, .splitHead, .concatLossless, .renameIntoDest]⟩
      else
        ⟨.ok dest, fs.set dest (some (.joined true)),
          [.splitTail, .splitHead, .concatLossless]⟩
    | .fail leavesT =>
      let fs1 := if samePath then fs
        else if leavesT then fs.set dest (some .truncated) else fs
      match o.transcode with
      | .ok =>
        if samePath then
          ⟨.ok dest, fs1.set dest (some (.joined false)),
            [.splitTail, .splitHead, .concatLossless,
              .concatTranscode cargs, .renameIntoDest]⟩
        else
          ⟨.ok dest, fs1.set dest (some (.joined false)),
            [.splitTail, .splitHead, .concatLossless, .concatTranscode cargs]⟩
      | .fail leavesT2 =>
        let fs2 := if samePath then fs1
          else if leavesT2 then fs1.set dest (some .truncated) else fs1
        ⟨.error .joinFailure, fs2,
          [.splitTail, .splitHead, .concatLossless, .concatTranscode cargs]⟩

/-- The pipeline after the overwrite-policy block (lines 133–229):
no-op copy when the duration is non-positive or the normalized cut is
within tolerance of zero, else the rotated case. -/
def afterPolicy (fs : FS) (o : Oracle) (inp : RunInput) (dest : String)
    (samePath : Bool) (srcContent : Content) (duration : ℚ) : RunResult :=
  if duration ≤ 0 then
    ⟨.ok dest, copyFile fs srcContent dest, [.copyNoOp]⟩
  else if isCloseZero (pymod inp.cutSeconds duration) then
    ⟨.ok dest, copyFile fs srcContent dest, [.copyNoOp]⟩
  else
    rotatedRun fs o inp.src dest samePath

/-- `loopify_audio` (lines 94–229) over the filesystem and oracle
model.  `cut_seconds` is finite by construction (`ℚ`), so the
`math.isfinite` guard at line 106 never fires in the model. -/
def loopifyAudio (fs : FS) (o : Oracle) (inp : RunInput) : RunResult :=
  match fs.files inp.src with
  | none => ⟨.error .inputNotFound, fs, []⟩
  | some srcContent =>
  match probeDuration o.probe with
  | .error e => ⟨.error e, fs, []⟩
  | .ok duration =>
    let dest := destOf inp
    if fs.dirs (parentDir dest) = false then
      ⟨.error .outputDirMissing, fs, []⟩
    else
      let samePath : Bool := inp.src == dest
      if (fs.files dest).isSome then
        if inp.force = false then ⟨.error .overwriteRefused, fs, []⟩
        else if samePath then
          afterPolicy fs o inp dest samePath srcContent duration
        else
          let r := afterPolicy (fs.set dest none) o inp dest samePath
            srcContent duration
          ⟨r.outcome, r.fs, .unlinkDest :: r.trace⟩
      else if samePath && !inp.force then
        ⟨.error .overwriteRefused, fs, []⟩
      else
        afterPolicy fs o inp dest samePath srcContent duration

/-- Content-level meaning of one rotation: an asset of duration `d`,
viewed as a function of time on `[0, d)`, is split at `c` and
reassembled tail-first — the output plays `[c, d)` (length `d - c`)
first and `[0, c)` last, exactly what the Splitter/Concatenator
pipeline produces (lines 142–224). -/
def rotate {α : Type} (d c : ℚ) (f : ℚ → α) : ℚ → α :=
  fun t => if t < d - c then f (t + c) else f (t - (d - c))

/-- Whether an event is one of the Concatenator's two join attempts. -/
def isConcatEvent : Event → Bool
  | .concatLossless => true
  | .concatTranscode _ => true
  | _ => false

/-! Concrete scenarios used to witness or refute the claims. -/

/-- A filesystem holding one source file `a.mp3` in the current
directory. -/
def fsA : FS :=
  { files := fun p => if p = "a.mp3" then some (.bytes [1, 2, 3]) else none,
    dirs := fun d => d = "." }

/-- A filesystem holding `a.mp3` and an existing destination
`b.mp3`. -/
def fsB : FS :=
  { files := fun p =>
      if p = "a.mp3" then some (.bytes [1, 2, 3])
      else if p = "b.mp3" then some (.bytes [9, 9]) else none,
    dirs := fun d => d = "." }

/-- A healthy probe observation: exit code `0`, one audio stream,
reported duration `10`. -/
def probeTen : ProbeOut := ⟨0, [⟨"audio"⟩], .value 10⟩

/-- Oracle: both splits succeed, both join attempts fail and leave
partially written output at their target. -/
def oracleJoinFails : Oracle :=
  ⟨probeTen, .ok, .ok, .fail true, .fail true⟩

/-- Oracle: splits succeed, the lossless join is rejected cleanly, the
re-encode fallback succeeds. -/
def oracleFallbackOk : Oracle :=
  ⟨probeTen, .ok, .ok, .fail false, .ok⟩

/-- Oracle: every invocation succeeds. -/
def oracleAllOk : Oracle :=
  ⟨probeTen, .ok, .ok, .ok, .ok⟩

/-- Run request: rotate `a.mp3` by 3 seconds into `b.mp3`. -/
def inpAB : RunInput := ⟨"a.mp3", 3, some "b.mp3", false⟩

/-- Run request: rotate `a.mp3` by 3 seconds in place, forced. -/
def inpAA : RunInput := ⟨"a.mp3", 3, some "a.mp3", true⟩

/-- Run request: rotate `a.mp3` by 3 seconds into the extensionless
destination `out`. -/
def inpAOut : RunInput := ⟨"a.mp3", 3, some "out", false⟩


/-! ## Theorems -/

theorem FS.files_set (fs : FS) (p : String) (v : Option Content) (q : String) :
    (fs.set p v).files q = if q = p then v else fs.files q := rfl

theorem pymod_eq_mul_fract (a b : ℚ) (hb : b ≠ 0) :
    pymod a b = b * Int.fract (a / b) := by
  rw [pymod, Int.fract, mul_sub, mul_div_cancel₀ _ hb]

/-- Claim C1: for every positive duration and every finite raw cut value,
the normalized offset `pymod raw d` lies in `[0, d)` and is periodic in
the duration (`pymod (raw + d) d = pymod raw d`); negative raw values
follow floored-modulo semantics, e.g. `pymod (-2) 10 = 8`. -/
theorem normalize_bounds_and_periodicity :
    (∀ raw d : ℚ, 0 < d →
      0 ≤ pymod raw d ∧ pymod raw d < d ∧ pymod (raw + d) d = pymod raw d) ∧
    pymod (-2) 10 = 8 := by
  constructor
  · intro raw d hd
    have hb : d ≠ 0 := ne_of_gt hd
    refine ⟨?_, ?_, ?_⟩
    · rw [pymod_eq_mul_fract _ _ hb]
      exact mul_nonneg hd.le (Int.fract_nonneg _)
    · rw [pymod_eq_mul_fract _ _ hb]
      calc d * Int.fract (raw / d) < d * 1 :=
            (mul_lt_mul_left hd).mpr (Int.fract_lt_one _)
        _ = d := mul_one d
    · rw [pymod, pymod]
      have h1 : (raw + d) / d = raw / d + 1 := by field_simp
      rw [h1, Int.floor_add_one]
      push_cast
      ring
  · norm_num [pymod]

/-- Witness for C1 at `raw = -2`, `duration = 10`. -/
theorem normalize_bounds_and_periodicity_witness :
    (0 : ℚ) < 10 ∧
    (0 ≤ pymod (-2) 10 ∧ pymod (-2) 10 < 10 ∧ pymod (-2 + 10) 10 = pymod (-2) 10) :=
  ⟨by norm_num, normalize_bounds_and_periodicity.1 (-2) 10 (by norm_num)⟩


/-- Claim C3: rotating an asset of duration `d` by a cut `c` with
`0 < c < d` (tail `[c, d)` first, head `[0, c)` last) and then rotating
the result by the complementary offset `d - c` restores the original
content at every time in `[0, d)`. -/
theorem rotate_complementary_self_inverse {α : Type} (f : ℚ → α) (d c t : ℚ)
    (_hc : 0 < c) (_hcd : c < d) (ht : 0 ≤ t) (htd : t < d) :
    rotate d (d - c) (rotate d c f) t = f t := by
  simp only [rotate]
  split_ifs with h1 h2 h2 <;>
    first
    | (exfalso; linarith)
    | (congr 1; ring)

/-- Witness for C3 at `d = 10`, `c = 3`, `t = 5`. -/
theorem rotate_complementary_self_inverse_witness :
    (0 : ℚ) < 3 ∧ (3 : ℚ) < 10 ∧ (0 : ℚ) ≤ 5 ∧ (5 : ℚ) < 10 ∧
    rotate 10 (10 - 3) (rotate 10 3 (fun x : ℚ => x)) 5 = 5 :=
  ⟨by norm_num, by norm_num, by norm_num, by norm_num,
    rotate_complementary_self_inverse (fun x : ℚ => x) 10 3 5
      (by norm_num) (by norm_num) (by norm_num) (by norm_num)⟩


theorem afterPolicy_noop (fs : FS) (o : Oracle) (inp : RunInput) (dest : String)
    (sp : Bool) (c : Content) (d : ℚ)
    (hnoop : d ≤ 0 ∨ isCloseZero (pymod inp.cutSeconds d) = true) :
    afterPolicy fs o inp dest sp c d = ⟨.ok dest, copyFile fs c dest, [.copyNoOp]⟩ := by
  unfold afterPolicy
  rcases hnoop with h | h
  · rw [if_pos h]
  · by_cases h0 : d ≤ 0
    · rw [if_pos h0]
    · rw [if_neg h0, if_pos h]

theorem afterPolicy_rotated (fs : FS) (o : Oracle) (inp : RunInput) (dest : String)
    (sp : Bool) (c : Content) (d : ℚ)
    (hpos : ¬ d ≤ 0) (hrot : isCloseZero (pymod inp.cutSeconds d) = false) :
    afterPolicy fs o inp dest sp c d = rotatedRun fs o inp.src dest sp := by
  unfold afterPolicy
  rw [if_neg hpos, if_neg (by simp [hrot])]

theorem loopify_policy_free (fs : FS) (o : Oracle) (inp : RunInput)
    (c : Content) (d : ℚ)
    (hsrc : fs.files inp.src = some c)
    (hprobe : probeDuration o.probe = .ok d)
    (hdir : fs.dirs (parentDir (destOf inp)) = true)
    (hfree : fs.files (destOf inp) = none)
    (hnsame : inp.src ≠ destOf inp) :
    loopifyAudio fs o inp =
      afterPolicy fs o inp (destOf inp) (inp.src == destOf inp) c d := by
  unfold loopifyAudio
  rw [hsrc, hprobe]
  simp only [hdir, hfree, beq_iff_eq]
  simp [hnsame]


theorem loopify_same_forced (fs : FS) (o : Oracle) (inp : RunInput)
    (c : Content) (d : ℚ)
    (hsame : destOf inp = inp.src)
    (hsrc : fs.files inp.src = some c)
    (hprobe : probeDuration o.probe = .ok d)
    (hdir : fs.dirs (parentDir (destOf inp)) = true)
    (hforce : inp.force = true) :
    loopifyAudio fs o inp =
      afterPolicy fs o inp (destOf inp) true c d := by
  have hdir' : fs.dirs (parentDir inp.src) = true := hsame ▸ hdir
  have hex : fs.files (destOf inp) = some c := hsame ▸ hsrc
  unfold loopifyAudio
  rw [hsrc, hprobe]
  simp only [hsame] at hex ⊢
  simp only [hdir', hex, hsrc, hforce, beq_iff_eq]
  simp

theorem loopify_exists_forced_notsame (fs : FS) (o : Oracle) (inp : RunInput)
    (c : Content) (c' : Content) (d : ℚ)
    (hsrc : fs.files inp.src = some c)
    (hprobe : probeDuration o.probe = .ok d)
    (hdir : fs.dirs (parentDir (destOf inp)) = true)
    (hex : fs.files (destOf inp) = some c')
    (hforce : inp.force = true)
    (hnsame : inp.src ≠ destOf inp) :
    loopifyAudio fs o inp =
      ⟨(afterPolicy (fs.set (destOf inp) none) o inp (destOf inp) false c d).outcome,
       (afterPolicy (fs.set (destOf inp) none) o inp (destOf inp) false c d).fs,
       .unlinkDest :: (afterPolicy (fs.set (destOf inp) none) o inp (destOf inp) false c d).trace⟩ := by
  have hne : (inp.src == destOf inp) = false := beq_eq_false_iff_ne.mpr hnsame
  unfold loopifyAudio
  rw [hsrc, hprobe]
  simp only [hdir, hex, hforce, hne, beq_iff_eq]
  simp [hnsame]

theorem loopify_refused_dest_exists (fs : FS) (o : Oracle) (inp : RunInput)
    (c : Content) (c' : Content) (d : ℚ)
    (hsrc : fs.files inp.src = some c)
    (hprobe : probeDuration o.probe = .ok d)
    (hdir : fs.dirs (parentDir (destOf inp)) = true)
    (hex : fs.files (destOf inp) = some c')
    (hforce : inp.force = false) :
    loopifyAudio fs o inp = ⟨.error .overwriteRefused, fs, []⟩ := by
  unfold loopifyAudio
  rw [hsrc, hprobe]
  simp only [hdir, hex, hforce, beq_iff_eq]
  simp


theorem loopify_dir_missing (fs : FS) (o : Oracle) (inp : RunInput)
    (c : Content) (d : ℚ)
    (hsrc : fs.files inp.src = some c)
    (hprobe : probeDuration o.probe = .ok d)
    (hdir : fs.dirs (parentDir (destOf inp)) = false) :
    loopifyAudio fs o inp = ⟨.error .outputDirMissing, fs, []⟩ := by
  unfold loopifyAudio
  rw [hsrc, hprobe]
  simp [hdir]

/-- Claim C2: when the probed duration is non-positive, or the
normalized offset is within absolute tolerance `1e-6` of zero, the run
takes the pure copy path — the trace holds no Splitter or Concatenator
invocation (only the no-op copy and possibly the policy unlink), and a
successful run leaves the destination byte-identical to the source. -/
theorem noop_copy_path (fs : FS) (o : Oracle) (inp : RunInput)
    (c : Content) (d : ℚ)
    (hsrc : fs.files inp.src = some c)
    (hprobe : probeDuration o.probe = .ok d)
    (hnoop : d ≤ 0 ∨ isCloseZero (pymod inp.cutSeconds d) = true) :
    (∀ e ∈ (loopifyAudio fs o inp).trace, e = .copyNoOp ∨ e = .unlinkDest) ∧
    ((loopifyAudio fs o inp).outcome = .ok (destOf inp) →
      (loopifyAudio fs o inp).fs.files (destOf inp) = some c) := by
  cases hdir : fs.dirs (parentDir (destOf inp)) with
  | false =>
    rw [loopify_dir_missing fs o inp c d hsrc hprobe hdir]
    simp
  | true =>
    cases hex : fs.files (destOf inp) with
    | none =>
      by_cases hsame : inp.src = destOf inp
      · rw [hsame, hex] at hsrc
        cases hsrc
      · rw [loopify_policy_free fs o inp c d hsrc hprobe hdir hex hsame,
          afterPolicy_noop fs o inp (destOf inp) _ c d hnoop]
        simp [copyFile, FS.files_set]
    | some c' =>
      cases hforce : inp.force with
      | false =>
        rw [loopify_refused_dest_exists fs o inp c c' d hsrc hprobe hdir hex hforce]
        simp
      | true =>
        by_cases hsame : inp.src = destOf inp
        · rw [loopify_same_forced fs o inp c d hsame.symm hsrc hprobe hdir hforce,
            afterPolicy_noop fs o inp (destOf inp) true c d hnoop]
          simp [copyFile, FS.files_set]
        · rw [loopify_exists_forced_notsame fs o inp c c' d hsrc hprobe hdir hex hforce hsame,
            afterPolicy_noop (fs.set (destOf inp) none) o inp (destOf inp) false c d hnoop]
          simp [copyFile, FS.files_set]

/-- Witness for C2: an in-place run with `cut_seconds = 10` equal to the
duration normalizes to zero and copies. -/
theorem noop_copy_path_witness :
    fsA.files inpAA.src = some (.bytes [1, 2, 3]) ∧
    probeDuration oracleAllOk.probe = .ok 10 ∧
    isCloseZero (pymod (10 : ℚ) 10) = true ∧
    ((∀ e ∈ (loopifyAudio fsA oracleAllOk { inpAA with cutSeconds := 10 }).trace,
        e = .copyNoOp ∨ e = .unlinkDest) ∧
      ((loopifyAudio fsA oracleAllOk { inpAA with cutSeconds := 10 }).outcome =
          .ok (destOf { inpAA with cutSeconds := 10 }) →
        (loopifyAudio fsA oracleAllOk { inpAA with cutSeconds := 10 }).fs.files
            (destOf { inpAA with cutSeconds := 10 }) = some (.bytes [1, 2, 3]))) :=
  ⟨rfl, rfl, by norm_num [isCloseZero, pymod],
    noop_copy_path fsA oracleAllOk { inpAA with cutSeconds := 10 } (.bytes [1, 2, 3]) 10
      rfl rfl (Or.inr (by norm_num [isCloseZero, pymod]))⟩


/-- Claim C5: the overwrite policy — an existing destination without
force fails with `OverwriteRefused` leaving the filesystem untouched; an
existing destination with force and distinct from the source is unlinked
before anything else happens (the unlink is the first event of the
trace); a destination equal to the source without force fails with
`OverwriteRefused`. -/
theorem overwrite_policy (fs : FS) (o : Oracle) (inp : RunInput)
    (c : Content) (d : ℚ)
    (hsrc : fs.files inp.src = some c)
    (hprobe : probeDuration o.probe = .ok d)
    (hdir : fs.dirs (parentDir (destOf inp)) = true) :
    ((fs.files (destOf inp)).isSome → inp.force = false →
      (loopifyAudio fs o inp).outcome = .error .overwriteRefused ∧
      (loopifyAudio fs o inp).fs = fs ∧
      (loopifyAudio fs o inp).trace = []) ∧
    ((fs.files (destOf inp)).isSome → inp.force = true → inp.src ≠ destOf inp →
      ∃ rest, (loopifyAudio fs o inp).trace = .unlinkDest :: rest) ∧
    (destOf inp = inp.src → inp.force = false →
      (loopifyAudio fs o inp).outcome = .error .overwriteRefused) := by
  refine ⟨?_, ?_, ?_⟩
  · intro hex hforce
    rcases Option.isSome_iff_exists.mp hex with ⟨c', hc'⟩
    rw [loopify_refused_dest_exists fs o inp c c' d hsrc hprobe hdir hc' hforce]
    simp
  · intro hex hforce hnsame
    rcases Option.isSome_iff_exists.mp hex with ⟨c', hc'⟩
    rw [loopify_exists_forced_notsame fs o inp c c' d hsrc hprobe hdir hc' hforce hnsame]
    exact ⟨_, rfl⟩
  · intro hsame hforce
    have hc' : fs.files (destOf inp) = some c := hsame ▸ hsrc
    rw [loopify_refused_dest_exists fs o inp c c d hsrc hprobe hdir hc' hforce]

/-- Witness for C5: an existing `b.mp3` without force is refused and
the filesystem is unchanged. -/
theorem overwrite_policy_witness :
    fsB.files inpAB.src = some (.bytes [1, 2, 3]) ∧
    probeDuration oracleAllOk.probe = .ok 10 ∧
    fsB.dirs (parentDir (destOf inpAB)) = true ∧
    (fsB.files (destOf inpAB)).isSome ∧ inpAB.force = false ∧
    ((loopifyAudio fsB oracleAllOk inpAB).outcome = .error .overwriteRefused ∧
      (loopifyAudio fsB oracleAllOk inpAB).fs = fsB ∧
      (loopifyAudio fsB oracleAllOk inpAB).trace = []) :=
  ⟨rfl, rfl, rfl, rfl, rfl,
    (overwrite_policy fsB oracleAllOk inpAB (.bytes [1, 2, 3]) 10 rfl rfl rfl).1 rfl rfl⟩


theorem rotatedRun_concat_spec (fs : FS) (o : Oracle) (src dest : String) (sp : Bool)
    (hst : o.splitTail = .ok) (hsh : o.splitHead = .ok) :
    (o.concatCopy = .ok →
      (rotatedRun fs o src dest sp).trace.filter isConcatEvent = [.concatLossless] ∧
      (rotatedRun fs o src dest sp).outcome = .ok dest) ∧
    (o.concatCopy ≠ .ok →
      (rotatedRun fs o src dest sp).trace.filter isConcatEvent =
        [.concatLossless,
          .concatTranscode (inferCodecArgs (fallbackSuffix (pathSuffix dest) (pathSuffix src)))]) ∧
    ((rotatedRun fs o src dest sp).outcome = .error .joinFailure ↔
      (o.concatCopy ≠ .ok ∧ o.transcode ≠ .ok)) := by
  unfold rotatedRun
  rw [hst, hsh]
  cases hcc : o.concatCopy with
  | ok => cases sp <;> simp [isConcatEvent]
  | fail b1 =>
    cases htr : o.transcode with
    | ok => cases sp <;> simp [isConcatEvent]
    | fail b2 => cases sp <;> simp [isConcatEvent]


/-- Claim C6: in every rotated run the Concatenator attempts the
lossless stream-copy join first; the re-encode fallback appears in the
trace exactly when the lossless attempt fails, no third strategy ever
runs, and the run ends in `JoinFailure` precisely when both the lossless
attempt and the fallback fail. -/
theorem concat_fallback_policy (fs : FS) (o : Oracle) (inp : RunInput)
    (c : Content) (d : ℚ)
    (hsrc : fs.files inp.src = some c)
    (hprobe : probeDuration o.probe = .ok d)
    (hdir : fs.dirs (parentDir (destOf inp)) = true)
    (hpos : ¬ d ≤ 0)
    (hrot : isCloseZero (pymod inp.cutSeconds d) = false)
    (hpol : (fs.files (destOf inp)).isSome → inp.force = true)
    (hst : o.splitTail = .ok) (hsh : o.splitHead = .ok) :
    (o.concatCopy = .ok →
      (loopifyAudio fs o inp).trace.filter isConcatEvent = [.concatLossless] ∧
      (loopifyAudio fs o inp).outcome = .ok (destOf inp)) ∧
    (o.concatCopy ≠ .ok →
      (loopifyAudio fs o inp).trace.filter isConcatEvent =
        [.concatLossless,
          .concatTranscode
            (inferCodecArgs (fallbackSuffix (pathSuffix (destOf inp)) (pathSuffix inp.src)))]) ∧
    ((loopifyAudio fs o inp).outcome = .error .joinFailure ↔
      (o.concatCopy ≠ .ok ∧ o.transcode ≠ .ok)) := by
  cases hex : fs.files (destOf inp) with
  | none =>
    by_cases hsame : inp.src = destOf inp
    · rw [hsame, hex] at hsrc; cases hsrc
    · rw [loopify_policy_free fs o inp c d hsrc hprobe hdir hex hsame,
        afterPolicy_rotated fs o inp (destOf inp) _ c d hpos hrot]
      exact rotatedRun_concat_spec fs o inp.src (destOf inp) _ hst hsh
  | some c' =>
    have hforce : inp.force = true := hpol (by rw [hex]; rfl)
    by_cases hsame : inp.src = destOf inp
    · rw [loopify_same_forced fs o inp c d hsame.symm hsrc hprobe hdir hforce,
        afterPolicy_rotated fs o inp (destOf inp) true c d hpos hrot]
      exact rotatedRun_concat_spec fs o inp.src (destOf inp) true hst hsh
    · rw [loopify_exists_forced_notsame fs o inp c c' d hsrc hprobe hdir hex hforce hsame,
        afterPolicy_rotated (fs.set (destOf inp) none) o inp (destOf inp) false c d hpos hrot]
      have h := rotatedRun_concat_spec (fs.set (destOf inp) none) o inp.src (destOf inp) false hst hsh
      simpa [isConcatEvent] using h


/-- Witness for C6: a rejected lossless join followed by a successful
re-encode fallback. -/
theorem concat_fallback_policy_witness :
    oracleFallbackOk.concatCopy ≠ .ok ∧ oracleFallbackOk.transcode = .ok ∧
    (loopifyAudio fsA oracleFallbackOk inpAB).trace.filter isConcatEvent =
      [.concatLossless,
        .concatTranscode
          (inferCodecArgs (fallbackSuffix (pathSuffix (destOf inpAB)) (pathSuffix inpAB.src)))] ∧
    ¬ (loopifyAudio fsA oracleFallbackOk inpAB).outcome = .error .joinFailure :=
  ⟨by decide, rfl,
    (concat_fallback_policy fsA oracleFallbackOk inpAB (.bytes [1, 2, 3]) 10
      rfl rfl rfl (by norm_num) (by norm_num [isCloseZero, pymod, inpAB])
      (fun h => absurd h (by decide)) rfl rfl).2.1 (by decide),
    fun h =>
      by cases ((concat_fallback_policy fsA oracleFallbackOk inpAB (.bytes [1, 2, 3]) 10
        rfl rfl rfl (by norm_num) (by norm_num [isCloseZero, pymod, inpAB])
        (fun h => absurd h (by decide)) rfl rfl).2.2.mp h).2 rfl⟩

theorem rotatedRun_same_join_fail (fs : FS) (o : Oracle) (src dest : String)
    (b1 b2 : Bool)
    (hst : o.splitTail = .ok) (hsh : o.splitHead = .ok)
    (hcc : o.concatCopy = .fail b1) (htr : o.transcode = .fail b2) :
    rotatedRun fs o src dest true =
      ⟨.error .joinFailure, fs,
        [.splitTail, .splitHead, .concatLossless,
          .concatTranscode
            (inferCodecArgs (fallbackSuffix (pathSuffix dest) (pathSuffix src)))]⟩ := by
  unfold rotatedRun
  rw [hst, hsh, hcc, htr]
  simp

/-- Claim C7: in a same-path run whose join fails (lossless and
fallback) after both segments were produced, the destination still holds
its original content — the join wrote only to the scoped temporary
working file, and no rename into the destination occurred. -/
theorem same_path_join_failure_atomic (fs : FS) (o : Oracle) (inp : RunInput)
    (c : Content) (d : ℚ) (b1 b2 : Bool)
    (hsame : destOf inp = inp.src)
    (hsrc : fs.files inp.src = some c)
    (hprobe : probeDuration o.probe = .ok d)
    (hdir : fs.dirs (parentDir (destOf inp)) = true)
    (hforce : inp.force = true)
    (hpos : ¬ d ≤ 0)
    (hrot : isCloseZero (pymod inp.cutSeconds d) = false)
    (hst : o.splitTail = .ok) (hsh : o.splitHead = .ok)
    (hcc : o.concatCopy = .fail b1) (htr : o.transcode = .fail b2) :
    (loopifyAudio fs o inp).outcome = .error .joinFailure ∧
    (loopifyAudio fs o inp).fs.files (destOf inp) = some c ∧
    (loopifyAudio fs o inp).trace =
      [.splitTail, .splitHead, .concatLossless,
        .concatTranscode
          (inferCodecArgs (fallbackSuffix (pathSuffix (destOf inp)) (pathSuffix inp.src)))] := by
  rw [loopify_same_forced fs o inp c d hsame hsrc hprobe hdir hforce,
    afterPolicy_rotated fs o inp (destOf inp) true c d hpos hrot,
    rotatedRun_same_join_fail fs o inp.src (destOf inp) b1 b2 hst hsh hcc htr]
  exact ⟨rfl, hsame ▸ hsrc, rfl⟩

/-- Witness for C7: an in-place run whose two join attempts both fail
still holds the original bytes at the destination. -/
theorem same_path_join_failure_atomic_witness :
    destOf inpAA = inpAA.src ∧
    fsA.files inpAA.src = some (.bytes [1, 2, 3]) ∧
    ((loopifyAudio fsA oracleJoinFails inpAA).outcome = .error .joinFailure ∧
      (loopifyAudio fsA oracleJoinFails inpAA).fs.files (destOf inpAA) =
        some (.bytes [1, 2, 3]) ∧
      (loopifyAudio fsA oracleJoinFails inpAA).trace =
        [.splitTail, .splitHead, .concatLossless,
          .concatTranscode
            (inferCodecArgs (fallbackSuffix (pathSuffix (destOf inpAA)) (pathSuffix inpAA.src)))]) :=
  ⟨rfl, rfl,
    same_path_join_failure_atomic fsA oracleJoinFails inpAA (.bytes [1, 2, 3]) 10 true true
      rfl rfl rfl rfl rfl (by norm_num) (by norm_num [isCloseZero, pymod, inpAA])
      rfl rfl rfl rfl⟩


theorem loopify_probe_error (fs : FS) (o : Oracle) (inp : RunInput)
    (c : Content) (e : RunError)
    (hsrc : fs.files inp.src = some c)
    (hp : probeDuration o.probe = .error e) :
    loopifyAudio fs o inp = ⟨.error e, fs, []⟩ := by
  unfold loopifyAudio
  rw [hsrc, hp]

/-- Counterexample to C8 as stated: with destination `b.mp3` distinct
from the source, a join whose two attempts fail leaves a partially
written file at the destination, which held no file before the run. -/
theorem no_partial_output_counterexample :
    fsA.files (destOf inpAB) = none ∧
    (loopifyAudio fsA oracleJoinFails inpAB).outcome = .error .joinFailure ∧
    (loopifyAudio fsA oracleJoinFails inpAB).fs.files (destOf inpAB) =
      some .truncated ∧
    Content.truncated ≠ .joined true ∧ Content.truncated ≠ .joined false ∧
    Content.truncated ≠ .bytes [1, 2, 3] := by
  rw [loopify_policy_free fsA oracleJoinFails inpAB (.bytes [1, 2, 3]) 10
      rfl rfl rfl rfl (by decide),
    afterPolicy_rotated fsA oracleJoinFails inpAB (destOf inpAB) _ (.bytes [1, 2, 3]) 10
      (by norm_num) (by norm_num [isCloseZero, pymod, inpAB])]
  refine ⟨rfl, ?_, ?_, by decide, by decide, by decide⟩ <;> decide

/-- Claim C8 (amended): when the destination is the same file as the
source, the run never leaves a partial file at the destination — at the
end it holds either the original content or a complete joined output.
(When the destination differs from the source, a failed join can leave
a partially written destination: see the counterexample.) -/
theorem same_path_no_partial_output (fs : FS) (o : Oracle) (inp : RunInput)
    (c : Content)
    (hsame : destOf inp = inp.src)
    (hsrc : fs.files inp.src = some c) :
    (loopifyAudio fs o inp).fs.files inp.src = some c ∨
    (loopifyAudio fs o inp).fs.files inp.src = some (.joined true) ∨
    (loopifyAudio fs o inp).fs.files inp.src = some (.joined false) := by
  cases hp : probeDuration o.probe with
  | error e =>
    rw [loopify_probe_error fs o inp c e hsrc hp]
    exact Or.inl hsrc
  | ok d =>
    cases hdir : fs.dirs (parentDir (destOf inp)) with
    | false =>
      rw [loopify_dir_missing fs o inp c d hsrc hp hdir]
      exact Or.inl hsrc
    | true =>
      have hex : fs.files (destOf inp) = some c := hsame ▸ hsrc
      cases hforce : inp.force with
      | false =>
        rw [loopify_refused_dest_exists fs o inp c c d hsrc hp hdir hex hforce]
        exact Or.inl hsrc
      | true =>
        rw [loopify_same_forced fs o inp c d hsame hsrc hp hdir hforce]
        by_cases hnoop : d ≤ 0 ∨ isCloseZero (pymod inp.cutSeconds d) = true
        · rw [afterPolicy_noop fs o inp (destOf inp) true c d hnoop]
          left
          simp [copyFile, FS.files_set, hsame]
        · push_neg at hnoop
          rw [afterPolicy_rotated fs o inp (destOf inp) true c d
            (not_le_of_lt hnoop.1) (by simpa using hnoop.2)]
          unfold rotatedRun
          cases hst : o.splitTail with
          | fail b => simpa using Or.inl hsrc
          | ok =>
            cases hsh : o.splitHead with
            | fail b => simpa using Or.inl hsrc
            | ok =>
              cases hcc : o.concatCopy with
              | ok =>
                right; left
                simp [FS.files_set, hsame]
              | fail b1 =>
                cases htr : o.transcode with
                | ok =>
                  right; right
                  simp [FS.files_set, hsame]
                | fail b2 =>
                  simpa using Or.inl hsrc

/-- Witness for the amended C8: an in-place run with both join attempts
failing keeps the original bytes. -/
theorem same_path_no_partial_output_witness :
    destOf inpAA = inpAA.src ∧
    fsA.files inpAA.src = some (.bytes [1, 2, 3]) ∧
    ((loopifyAudio fsA oracleJoinFails inpAA).fs.files inpAA.src =
        some (.bytes [1, 2, 3]) ∨
      (loopifyAudio fsA oracleJoinFails inpAA).fs.files inpAA.src =
        some (.joined true) ∨
      (loopifyAudio fsA oracleJoinFails inpAA).fs.files inpAA.src =
        some (.joined false)) :=
  ⟨rfl, rfl,
    same_path_no_partial_output fsA oracleJoinFails inpAA (.bytes [1, 2, 3]) rfl rfl⟩


/-- Counterexample to C4 as stated: a clean probe reporting duration
`-5` returns `-5`, which is negative. -/
theorem probe_negative_duration_counterexample :
    probeDuration ⟨0, [⟨"audio"⟩], .value (-5)⟩ = .ok (-5) ∧ ¬ (0 : ℚ) ≤ -5 :=
  ⟨rfl, by norm_num⟩

/-- Claim C4 (amended): on a clean probe with an audio stream, a
reported `nan` duration yields `0`, a missing or unparseable duration
raises `InvalidDuration`, and a parseable value is returned exactly as
reported (the code does not force it non-negative); a probe without an
audio stream raises `NoAudioStream`. -/
theorem probe_duration_amended :
    (∀ p : ProbeOut, p.returncode = 0 →
      p.streams.any (fun s => s.codec_type = "audio") = true →
      ((p.duration = .nan → probeDuration p = .ok 0) ∧
        (p.duration = .missing → probeDuration p = .error .invalidDuration) ∧
        (p.duration = .unparseable → probeDuration p = .error .invalidDuration) ∧
        (∀ v : ℚ, p.duration = .value v → probeDuration p = .ok v))) ∧
    (∀ p : ProbeOut, p.returncode = 0 →
      p.streams.any (fun s => s.codec_type = "audio") = false →
      probeDuration p = .error .noAudioStream) := by
  constructor
  · intro p hrc haud
    refine ⟨?_, ?_, ?_, ?_⟩ <;>
      first
      | (intro hdv; simp [probeDuration, hrc, haud, hdv])
      | (intro v hdv; simp [probeDuration, hrc, haud, hdv])
  · intro p hrc haud
    simp [probeDuration, hrc, haud]

/-- Witness for the amended C4 at a healthy probe reporting `10`. -/
theorem probe_duration_amended_witness :
    probeTen.returncode = 0 ∧
    probeTen.streams.any (fun s => s.codec_type = "audio") = true ∧
    probeTen.duration = .value 10 ∧
    probeDuration probeTen = .ok 10 :=
  ⟨rfl, rfl, rfl, (probe_duration_amended.1 probeTen rfl rfl).2.2.2 10 rfl⟩

/-- Counterexample to C9 as stated: with an extensionless destination
`out` and an `.mp3` source, the fallback uses the MP3 encoder although
the destination extension alone selects AAC. -/
theorem codec_dest_extension_counterexample :
    (loopifyAudio fsA oracleFallbackOk inpAOut).trace =
      [.splitTail, .splitHead, .concatLossless,
        .concatTranscode ["-c:a", "libmp3lame", "-q:a", "2"]] ∧
    pathSuffix (destOf inpAOut) = "" ∧
    inferCodecArgs (pathSuffix (destOf inpAOut)) = ["-c:a", "aac", "-b:a", "192k"] ∧
    ["-c:a", "libmp3lame", "-q:a", "2"] ≠ ["-c:a", "aac", "-b:a", "192k"] := by
  rw [loopify_policy_free fsA oracleFallbackOk inpAOut (.bytes [1, 2, 3]) 10
      rfl rfl rfl rfl (by decide),
    afterPolicy_rotated fsA oracleFallbackOk inpAOut (destOf inpAOut) _ (.bytes [1, 2, 3]) 10
      (by norm_num) (by norm_num [isCloseZero, pymod, inpAOut])]
  refine ⟨by decide, by decide, by decide, by decide⟩

/-- Claim C9 (amended): the re-encode fallback selects codec
parameters from the destination extension, falling back to the source
extension when the destination has none (`dest.suffix or src.suffix`);
a lowercased `.mp3` selects `libmp3lame -q:a 2`, `.wav` selects
`pcm_s16le`, and every other suffix selects AAC at 192kbps. -/
theorem codec_selection_amended (fs : FS) (o : Oracle) (inp : RunInput)
    (c : Content) (d : ℚ)
    (hsrc : fs.files inp.src = some c)
    (hprobe : probeDuration o.probe = .ok d)
    (hdir : fs.dirs (parentDir (destOf inp)) = true)
    (hpos : ¬ d ≤ 0)
    (hrot : isCloseZero (pymod inp.cutSeconds d) = false)
    (hpol : (fs.files (destOf inp)).isSome → inp.force = true)
    (hst : o.splitTail = .ok) (hsh : o.splitHead = .ok)
    (hcc : o.concatCopy ≠ .ok) :
    (loopifyAudio fs o inp).trace.filter isConcatEvent =
      [.concatLossless,
        .concatTranscode
          (inferCodecArgs (fallbackSuffix (pathSuffix (destOf inp)) (pathSuffix inp.src)))] ∧
    (∀ s : String, strLower s = ".mp3" →
      inferCodecArgs s = ["-c:a", "libmp3lame", "-q:a", "2"]) ∧
    (∀ s : String, strLower s = ".wav" → inferCodecArgs s = ["-c:a", "pcm_s16le"]) ∧
    (∀ s : String, strLower s ≠ ".mp3" → strLower s ≠ ".wav" →
      inferCodecArgs s = ["-c:a", "aac", "-b:a", "192k"]) := by
  refine ⟨?_, ?_, ?_, ?_⟩
  · cases hex : fs.files (destOf inp) with
    | none =>
      by_cases hsame : inp.src = destOf inp
      · rw [hsame, hex] at hsrc; cases hsrc
      · rw [loopify_policy_free fs o inp c d hsrc hprobe hdir hex hsame,
          afterPolicy_rotated fs o inp (destOf inp) _ c d hpos hrot]
        exact (rotatedRun_concat_spec fs o inp.src (destOf inp) _ hst hsh).2.1 hcc
    | some c' =>
      have hforce : inp.force = true := hpol (by rw [hex]; rfl)
      by_cases hsame : inp.src = destOf inp
      · rw [loopify_same_forced fs o inp c d hsame.symm hsrc hprobe hdir hforce,
          afterPolicy_rotated fs o inp (destOf inp) true c d hpos hrot]
        exact (rotatedRun_concat_spec fs o inp.src (destOf inp) true hst hsh).2.1 hcc
      · rw [loopify_exists_forced_notsame fs o inp c c' d hsrc hprobe hdir hex hforce hsame,
          afterPolicy_rotated (fs.set (destOf inp) none) o inp (destOf inp) false c d hpos hrot]
        have h := (rotatedRun_concat_spec (fs.set (destOf inp) none) o inp.src (destOf inp)
          false hst hsh).2.1 hcc
        simpa [isConcatEvent] using h
  · intro s h
    simp [inferCodecArgs, h]
  · intro s h
    simp [inferCodecArgs, h]
  · intro s h1 h2
    simp only [inferCodecArgs]
    rw [if_neg h1, if_neg h2]

/-- Witness for the amended C9 on a run into `b.mp3` whose lossless
join is rejected. -/
theorem codec_selection_amended_witness :
    oracleFallbackOk.concatCopy ≠ .ok ∧
    (loopifyAudio fsA oracleFallbackOk inpAB).trace.filter isConcatEvent =
      [.concatLossless,
        .concatTranscode
          (inferCodecArgs (fallbackSuffix (pathSuffix (destOf inpAB)) (pathSuffix inpAB.src)))] ∧
    inferCodecArgs ".wav" = ["-c:a", "pcm_s16le"] :=
  ⟨by decide,
    (codec_selection_amended fsA oracleFallbackOk inpAB (.bytes [1, 2, 3]) 10
      rfl rfl rfl (by norm_num) (by norm_num [isCloseZero, pymod, inpAB])
      (fun h => absurd h (by decide)) rfl rfl (by decide)).1,
    (codec_selection_amended fsA oracleFallbackOk inpAB (.bytes [1, 2, 3]) 10
      rfl rfl rfl (by norm_num) (by norm_num [isCloseZero, pymod, inpAB])
      (fun h => absurd h (by decide)) rfl rfl (by decide)).2.2.1 ".wav" rfl⟩


theorem char_ofNat_toNat_small : ∀ n : Nat, n < 123 → (Char.ofNat n).toNat = n := by
  decide

theorem char_toLower_idem (c : Char) : c.toLower.toLower = c.toLower := by
  unfold Char.toLower
  by_cases h : c.toNat ≥ 65 ∧ c.toNat ≤ 90
  · rw [if_pos h]
    have hn : (Char.ofNat (c.toNat + 32)).toNat = c.toNat + 32 :=
      char_ofNat_toNat_small (c.toNat + 32) (by omega)
    rw [hn, if_neg (by omega)]
  · rw [if_neg h, if_neg h]

theorem strLower_idem (s : String) : strLower (strLower s) = strLower s := by
  simp only [strLower, List.map_map]
  congr 1
  exact List.map_congr_left fun c _ => char_toLower_idem c

/-- Claim C10: extension matching for fallback codec selection is
case-insensitive — the suffix is lowercased before comparison, so
`.MP3` and `.Mp3` select the MP3 encoder and `.WAV` selects 16-bit PCM
instead of falling through to the AAC default. -/
theorem infer_codec_case_insensitive :
    (∀ s : String, inferCodecArgs s = inferCodecArgs (strLower s)) ∧
    inferCodecArgs ".MP3" = ["-c:a", "libmp3lame", "-q:a", "2"] ∧
    inferCodecArgs ".Mp3" = ["-c:a", "libmp3lame", "-q:a", "2"] ∧
    inferCodecArgs ".WAV" = ["-c:a", "pcm_s16le"] ∧
    inferCodecArgs ".MP3" ≠ ["-c:a", "aac", "-b:a", "192k"] ∧
    inferCodecArgs ".WAV" ≠ ["-c:a", "aac", "-b:a", "192k"] := by
  refine ⟨?_, by decide, by decide, by decide, by decide, by decide⟩
  intro s
  simp only [inferCodecArgs, strLower_idem]

end Loopify
